import Mathlib

/-!
Shallow embedding of the TuneTables tabular-data core
(`src/tabpfn/priors/real.py`): the `TabularDataset` container with its
validated construction, categorical encoding and directory persistence,
the greedy-coreset sampler, the `SubsetMaker` row/feature reduction
engine, and the imputation step of `process_data`.  Numpy float arrays
are modelled over `ℚ` (`Option ℚ` where NaN matters), fallible Python
code returns `Except String`, and object mutation is explicit state
passing.  Randomized library calls (`np.random.Generator.choice`,
`mutual_info_classif`, the PCA projection) are taken as explicit
function parameters; everything else is translated line by line from
the source.
-/

namespace TuneTables

/-- A numpy array as stored in the container: a shape together with flat
row-major rational data. -/
structure NDArr where
  shape : List Nat
  data : List ℚ
deriving DecidableEq

/-- One entry of `split_indeces`: a dictionary with keys train, val, test
mapping to integer index arrays. -/
structure SplitDict where
  train : List Nat
  val : List Nat
  test : List Nat
deriving DecidableEq

/-- The `TabularDataset` container state after successful construction. -/
structure TabularDataset where
  name : String
  X : NDArr
  y : NDArr
  s : NDArr
  cat_idx : List Nat
  target_type : String
  num_classes : Int
  num_features : Nat
  cat_dims : Option (List Nat)
  num_instances : Nat
  split_indeces : Option (List SplitDict)
  split_source : Option String
deriving DecidableEq

/-- A failed Python `assert` raises; a passed one is a no-op. -/
def pyAssert (b : Bool) (msg : String) : Except String Unit :=
  if b then .ok () else .error msg

/-- The `TabularDataset.__init__` validation (src/tabpfn/priors/real.py
lines 24-106), in source order.  When `num_instances` is `none` it is
taken from `X.shape[0]` and the shapes of `y` and `s` are not compared
against it; the explicit branch asserts both.  The `cat_idx` bound is
`max(cat_idx) <= num_features - 1` over Python ints, so the subtraction
is over `Int`. -/
def TabularDataset.init (name : String) (X y s : NDArr) (cat_idx : List Nat)
    (target_type : String) (num_classes : Int)
    (num_features : Option Nat) (num_instances : Option Nat)
    (cat_dims : Option (List Nat)) (split_indeces : Option (List SplitDict))
    (split_source : Option String) : Except String TabularDataset := do
  pyAssert (X.shape.headD 0 == y.shape.headD 0)
    "X and y must match along their 0-th dimensions"
  pyAssert (X.shape.length == 2) "X must be 2-dimensional"
  pyAssert (y.shape.length == 1) "y must be 1-dimensional"
  pyAssert (s.shape.length == 1) "y must be 1-dimensional"
  let ni ← match num_instances with
    | some n => do
        pyAssert (X.shape.headD 0 == n)
          "first dimension of X must be equal to num_instances"
        pyAssert (y.shape == [n]) "shape of y must be (num_instances, )"
        pyAssert (s.shape == [n]) "shape of y must be (num_instances, )"
        pure n
    | none => pure (X.shape.headD 0)
  let nf ← match num_features with
    | some n => do
        pyAssert (X.shape.getD 1 0 == n)
          "second dimension of X must be equal to num_features"
        pure n
    | none => pure (X.shape.getD 1 0)
  pyAssert (cat_idx.length == 0 ||
      decide (((cat_idx.foldr max 0 : Nat) : Int) ≤ (nf : Int) - 1))
    "max index in cat_idx exceeds num_features"
  pyAssert (target_type == "regression" || target_type == "classification" ||
      target_type == "binary") "target_type must be recognized"
  pyAssert (if target_type == "regression" then num_classes == 1
      else if target_type == "binary" then num_classes == 1
      else num_classes > 2) "num_classes inconsistent with target_type"
  pure ⟨name, X, y, s, cat_idx, target_type, num_classes, nf, cat_dims, ni,
    split_indeces, split_source⟩

/-- The scalar/list metadata persisted to `metadata.json`
(`TabularDataset.get_metadata`). -/
structure Metadata where
  name : String
  cat_idx : List Nat
  cat_dims : Option (List Nat)
  target_type : String
  num_classes : Int
  num_features : Nat
  num_instances : Nat
  split_source : Option String
deriving DecidableEq

def TabularDataset.get_metadata (d : TabularDataset) : Metadata :=
  ⟨d.name, d.cat_idx, d.cat_dims, d.target_type, d.num_classes,
    d.num_features, d.num_instances, d.split_source⟩

/-- Contents of a dataset directory: each field is `some` when the
corresponding artifact file exists. -/
structure DirContents where
  X_npy : Option NDArr
  y_npy : Option NDArr
  sens_a_npy : Option NDArr
  split_indeces_npy : Option (Option (List SplitDict))
  metadata_json : Option Metadata
deriving DecidableEq

/-- An empty, freshly created directory. -/
def DirContents.empty : DirContents := ⟨none, none, none, none, none⟩

/-- Python `~bool`: `~True` is `-2` and `~False` is `-1`. -/
def pyInvertBool (b : Bool) : Int := if b then -2 else -1

/-- Python truthiness of an int: nonzero. -/
def truthy (i : Int) : Bool := i != 0

/-- The `TabularDataset.write` method (src/tabpfn/priors/real.py lines
190-210), as a transformer of the target path state (`none` when the
path does not exist).  Returns the resulting path state and the raised
error, if any.  The guard `assert ~p.exists()` tests the Python bitwise
inversion of a bool, which is always truthy, so the assert never fires;
`p.mkdir(parents=True, exist_ok=overwrite)` then raises when the
directory exists and `overwrite` is false.  Only four artifacts are
written: X, y, split_indeces and metadata; `s` is never persisted. -/
def TabularDataset.write (d : TabularDataset) (target : Option DirContents)
    (overwrite : Bool) : Option DirContents × Option String :=
  if !overwrite && !(truthy (pyInvertBool target.isSome)) then
    (target, some "AssertionError: the path already exists")
  else if target.isSome && !overwrite then
    (target, some "FileExistsError")
  else
    let base : DirContents := target.getD DirContents.empty
    (some { base with
        X_npy := some d.X
        y_npy := some d.y
        split_indeces_npy := some d.split_indeces
        metadata_json := some d.get_metadata }, none)

/-- The `TabularDataset.read` classmethod (src/tabpfn/priors/real.py lines
151-188): assert in source order that the five artifacts exist, then
rebuild the container through the validated constructor with every
metadata field passed through. -/
def TabularDataset.read (p : DirContents) : Except String TabularDataset := do
  pyAssert p.X_npy.isSome "path to X does not exist"
  pyAssert p.y_npy.isSome "path to y does not exist"
  pyAssert p.sens_a_npy.isSome "path to s does not exist"
  pyAssert p.metadata_json.isSome "path to metadata does not exist"
  pyAssert p.split_indeces_npy.isSome "path to split indeces does not exist"
  match p.X_npy, p.y_npy, p.sens_a_npy, p.split_indeces_npy, p.metadata_json with
  | some X, some y, some s, some si, some m =>
      TabularDataset.init m.name X y s m.cat_idx m.target_type m.num_classes
        (some m.num_features) (some m.num_instances) m.cat_dims si m.split_source
  | _, _, _, _, _ => .error "unreachable"

/-- Values of column `i` of a 2-d row-major array. -/
def NDArr.col (X : NDArr) (i : Nat) : List ℚ :=
  (List.range (X.shape.headD 0)).map
    (fun r => X.data.getD (r * X.shape.getD 1 0 + i) 0)

/-- Classes learned by `sklearn.LabelEncoder.fit`: the sorted distinct
values. -/
def leClasses (xs : List ℚ) : List ℚ := xs.dedup.mergeSort (· ≤ ·)

/-- `LabelEncoder.transform` of one value: its index among the classes. -/
def leTransform (classes : List ℚ) (v : ℚ) : ℚ := (classes.indexOf v : Nat)

/-- Overwrite column `i` of a row-major array with its label-encoded
values (`self.X[:, i] = le.fit_transform(self.X[:, i])`). -/
def encodeColumn (X : NDArr) (i : Nat) : NDArr :=
  let f := X.shape.getD 1 0
  let classes := leClasses (X.col i)
  ⟨X.shape, X.data.mapIdx (fun idx v =>
    if idx % f == i then leTransform classes v else v)⟩

/-- The `TabularDataset.cat_feature_encode` method (src/tabpfn/priors/real.py
lines 122-137): raise if `cat_dims` is already set, otherwise start from
the empty list and, for each feature index in the (nonempty) `cat_idx`,
label-encode the column and append its class count to `cat_dims`. -/
def TabularDataset.cat_feature_encode (d : TabularDataset) :
    Except String TabularDataset :=
  if d.cat_dims.isSome then
    .error "cat_dims is already set. Categorical feature encoding might be running twice."
  else
    let step := (List.range d.num_features).foldl
      (fun (acc : NDArr × List Nat) i =>
        if !d.cat_idx.isEmpty && d.cat_idx.contains i then
          (encodeColumn acc.1 i, acc.2 ++ [(leClasses (acc.1.col i)).length])
        else acc)
      (d.X, [])
    .ok { d with X := step.1, cat_dims := some step.2 }

/-- C7 failing input: a 2x2 `X`, a length-2 `y`, and a length-3 `s`, with
`num_instances` and `num_features` left implicit. -/
def c7_bad_s : NDArr := ⟨[3], [0, 0, 0]⟩

/-- C7: `TabularDataset.__init__` with `num_instances` omitted never
compares the length of `s` against the number of rows of `X`, so a
protected-attribute vector of the wrong length is accepted.  The same
input with `num_instances = 2` passed explicitly is rejected. -/
theorem init_accepts_mismatched_s :
    (∃ d, TabularDataset.init "d" ⟨[2, 2], [0, 0, 0, 0]⟩ ⟨[2], [0, 0]⟩ c7_bad_s
      [] "regression" 1 none none none none none = .ok d ∧ d.s = c7_bad_s) ∧
    TabularDataset.init "d" ⟨[2, 2], [0, 0, 0, 0]⟩ ⟨[2], [0, 0]⟩ c7_bad_s
      [] "regression" 1 none (some 2) none none none
      = .error "shape of y must be (num_instances, )" := by
  exact ⟨⟨_, rfl, rfl⟩, rfl⟩

/-- C2: writing a dataset to a fresh path succeeds but persists only four
artifacts - `sens_a.npy.gz` is never written - so reading the directory
back fails its existence assertion instead of reproducing the dataset. -/
theorem write_then_read_fails (d : TabularDataset) :
    ∃ c : DirContents, d.write none false = (some c, none) ∧
      c.sens_a_npy = none ∧
      TabularDataset.read c = .error "path to s does not exist" := by
  exact ⟨_, rfl, rfl, rfl⟩

/-- C9: writing to an existing path with `overwrite = false` fails with
`FileExistsError` and leaves the prior contents in place, while
`overwrite = true` proceeds and produces the four written artifacts on
top of the existing directory. -/
theorem write_existing_path_guard (d : TabularDataset) (c : DirContents) :
    d.write (some c) false = (some c, some "FileExistsError") ∧
    d.write (some c) true = (some { c with
        X_npy := some d.X
        y_npy := some d.y
        split_indeces_npy := some d.split_indeces
        metadata_json := some d.get_metadata }, none) := by
  exact ⟨rfl, rfl⟩

/-- C10: encoding categorical features fails with the double-encoding
error whenever `cat_dims` is already populated; when `cat_dims` is unset
the call succeeds, leaves `cat_dims` populated, and therefore a second
call on the result always fails - also for an empty `cat_idx`. -/
theorem cat_feature_encode_once (d : TabularDataset) :
    (∀ l, d.cat_dims = some l → d.cat_feature_encode =
      .error "cat_dims is already set. Categorical feature encoding might be running twice.") ∧
    (d.cat_dims = none → ∃ d', d.cat_feature_encode = .ok d' ∧
      d'.cat_dims.isSome = true ∧
      d'.cat_feature_encode =
        .error "cat_dims is already set. Categorical feature encoding might be running twice.") := by
  constructor
  · intro l hl
    simp [TabularDataset.cat_feature_encode, hl]
  · intro h
    refine ⟨{ d with
        X := ((List.range d.num_features).foldl
          (fun (acc : NDArr × List Nat) i =>
            if !d.cat_idx.isEmpty && d.cat_idx.contains i then
              (encodeColumn acc.1 i, acc.2 ++ [(leClasses (acc.1.col i)).length])
            else acc) (d.X, [])).1
        cat_dims := some ((List.range d.num_features).foldl
          (fun (acc : NDArr × List Nat) i =>
            if !d.cat_idx.isEmpty && d.cat_idx.contains i then
              (encodeColumn acc.1 i, acc.2 ++ [(leClasses (acc.1.col i)).length])
            else acc) (d.X, [])).2 }, ?_, rfl, ?_⟩
    · simp [TabularDataset.cat_feature_encode, h]
    · simp [TabularDataset.cat_feature_encode]

/-- Closed witness for `cat_feature_encode_once`: a container with an
empty `cat_idx` and unset `cat_dims`. -/
def c10_dataset : TabularDataset :=
  ⟨"w", ⟨[1, 1], [0]⟩, ⟨[1], [0]⟩, ⟨[1], [0]⟩, [], "regression", 1, 1, none,
    1, none, none⟩

theorem cat_feature_encode_once_witness :
    c10_dataset.cat_dims = none ∧
    ∃ d', c10_dataset.cat_feature_encode = .ok d' ∧
      d'.cat_dims.isSome = true ∧
      d'.cat_feature_encode =
        .error "cat_dims is already set. Categorical feature encoding might be running twice." :=
  ⟨rfl, (cat_feature_encode_once c10_dataset).2 rfl⟩

/-- Squared Euclidean distance between two rows: `np.sum((a - b) ** 2)`. -/
def sqDist (a b : List ℚ) : ℚ := (List.zipWith (fun x y => (x - y) ^ 2) a b).sum

/-- The `CoresetSampler._compute_batchwise_differences` helper: the matrix
of pairwise squared distances between the rows of `a` and the rows of
`b`. -/
def batchwiseDifferences (a b : List (List ℚ)) : List (List ℚ) :=
  a.map (fun ra => b.map (fun rb => sqDist ra rb))

/-- Scan kept by `np.argmax`: the current best value, its (first) index,
and the index of the element under inspection. -/
def argmaxAux (best : ℚ) (bestIdx i : Nat) : List ℚ → Nat
  | [] => bestIdx
  | x :: xs =>
    if best < x then argmaxAux x i (i + 1) xs else argmaxAux best bestIdx (i + 1) xs

/-- Behavior of `np.argmax`: the index of the first occurrence of the
maximum (0 on the empty input, which numpy instead rejects). -/
def argmax : List ℚ → Nat
  | [] => 0
  | x :: xs => argmaxAux x 0 1 xs

/-- Minimum of one row, for `np.min(..., axis=1)` applied row-wise. -/
def rowMin : List ℚ → ℚ
  | [] => 0
  | x :: xs => xs.foldl min x

/-- Selection loop of `_compute_greedy_coreset_indices`
(src/tabpfn/priors/real.py lines 237-249), with the anchor distances kept
as the (N, 1) column matrix the code carries: argmax over the flattened
column picks `select_idx`, `_compute_batchwise_differences` against the
one-row slice `features[select_idx : select_idx + 1]` produces the new
column, which is concatenated and collapsed back to one column by the
row-wise minimum. -/
def greedyLoopSrc (features : List (List ℚ)) (dists : List (List ℚ)) :
    Nat → List Nat
  | 0 => []
  | k + 1 =>
    argmax dists.flatten ::
      greedyLoopSrc features
        ((List.zipWith (· ++ ·) dists
          (batchwiseDifferences features [features.getD (argmax dists.flatten) []])).map
          (fun row => [rowMin row])) k

/-- Configuration of `CoresetSampler`; the seeded `np.random.default_rng`
generator itself is not modelled - its draw is passed explicitly to the
computation. -/
structure CoresetSampler where
  number_of_set_points : Nat
  number_of_starting_points : Nat
deriving DecidableEq

/-- Upper clamp `np.clip(self.number_of_starting_points, None, len(features))`. -/
def CoresetSampler.clampedStartingPoints (c : CoresetSampler)
    (features : List (List ℚ)) : Nat :=
  min c.number_of_starting_points features.length

/-- `CoresetSampler._compute_greedy_coreset_indices` with the
`rng.choice(len(features), number_of_starting_points, replace=False)`
draw supplied as `start_points`: the approximate distance matrix against
the anchor rows is averaged along the last axis and reshaped to a
column, then the greedy loop runs `number_of_set_points` times. -/
def CoresetSampler.computeGreedyCoresetIndices (c : CoresetSampler)
    (features : List (List ℚ)) (start_points : List Nat) : List Nat :=
  greedyLoopSrc features
    ((batchwiseDifferences features
        (start_points.map (fun i => features.getD i []))).map
      (fun row => [row.sum / (row.length : ℚ)]))
    c.number_of_set_points

/-- Spec-side greedy loop, written from the spec (section 4.2 step 3):
repeat `k` times - select the row with the maximum current anchor
distance (ties broken by first occurrence), append its index, and
replace every row's anchor distance by the minimum of its previous value
and the squared distance to the newly selected row. -/
def coresetSpecLoop (features : List (List ℚ)) : Nat → List ℚ → List Nat
  | 0, _ => []
  | k + 1, dists =>
    argmax dists ::
      coresetSpecLoop features k
        (List.zipWith (fun d r => min d (sqDist r (features.getD (argmax dists) [])))
          dists features)

/-- Spec-side coreset (spec section 4.2 steps 2-4): each row starts with
the mean squared distance to the starting anchors as its anchor
distance, then the greedy farthest-point loop runs `k` times. -/
def coresetSpec (features : List (List ℚ)) (anchors : List Nat) (k : Nat) :
    List Nat :=
  coresetSpecLoop features k
    (features.map (fun r =>
      (anchors.map (fun a => sqDist r (features.getD a []))).sum
        / (anchors.length : ℚ)))

lemma flatten_map_singleton (l : List ℚ) : (l.map (fun q => [q])).flatten = l := by
  induction l with
  | nil => rfl
  | cons x xs ih => simp [ih]

lemma batchwise_single (fs : List (List ℚ)) (b : List ℚ) :
    batchwiseDifferences fs [b] = fs.map (fun ra => [sqDist ra b]) := rfl

lemma zip_singleton_rowMin (g : List ℚ → ℚ) (l : List ℚ) (fs : List (List ℚ)) :
    (List.zipWith (· ++ ·) (l.map (fun q => [q])) (fs.map (fun r => [g r]))).map
      (fun row => [rowMin row])
    = (List.zipWith (fun d r => min d (g r)) l fs).map (fun q => [q]) := by
  induction l generalizing fs with
  | nil => simp
  | cons x xs ih =>
    cases fs with
    | nil => simp
    | cons f fsl =>
      simp only [List.map_cons, List.zipWith_cons_cons]
      rw [ih]
      simp [rowMin]

lemma greedyLoopSrc_eq_specLoop (features : List (List ℚ)) (k : Nat) :
    ∀ l : List ℚ,
      greedyLoopSrc features (l.map (fun q => [q])) k = coresetSpecLoop features k l := by
  induction k with
  | zero => intro l; rfl
  | succ n ih =>
    intro l
    simp only [greedyLoopSrc, coresetSpecLoop, flatten_map_singleton, batchwise_single,
      zip_singleton_rowMin, ih]

lemma computeGreedy_eq_spec (c : CoresetSampler) (features : List (List ℚ))
    (sp : List Nat) :
    c.computeGreedyCoresetIndices features sp
      = coresetSpec features sp c.number_of_set_points := by
  unfold CoresetSampler.computeGreedyCoresetIndices coresetSpec
  rw [← greedyLoopSrc_eq_specLoop]
  congr 1
  unfold batchwiseDifferences
  rw [List.map_map, List.map_map]
  apply List.map_congr_left
  intro r _
  simp only [Function.comp_apply, List.map_map, List.length_map]
  rfl

lemma argmaxAux_invariant (l : List ℚ) (xs : List ℚ) :
    ∀ (best : ℚ) (bi i : Nat),
      xs = l.drop i → l.getD bi 0 = best → bi < i → bi < l.length →
      (∀ j, j < i → l.getD j 0 ≤ best) →
      (∀ j, j < bi → l.getD j 0 < best) →
      argmaxAux best bi i xs < l.length ∧
      (∀ j, j < l.length → l.getD j 0 ≤ l.getD (argmaxAux best bi i xs) 0) ∧
      (∀ j, j < argmaxAux best bi i xs → l.getD j 0 < l.getD (argmaxAux best bi i xs) 0) := by
  induction xs with
  | nil =>
    intro best bi i hdrop hbest hbii hbl hle hlt
    have hlen : l.length ≤ i := by
      have h0 := congrArg List.length hdrop
      simp only [List.length_nil, List.length_drop] at h0
      omega
    simp only [argmaxAux]
    refine ⟨hbl, ?_, ?_⟩
    · intro j hj
      rw [hbest]; exact hle j (by omega)
    · intro j hj
      rw [hbest]; exact hlt j hj
  | cons x xs ih =>
    intro best bi i hdrop hbest hbii hbl hle hlt
    have hilen : i < l.length := by
      have h0 := congrArg List.length hdrop
      simp only [List.length_cons, List.length_drop] at h0
      omega
    have hx : l.getD i 0 = x := by
      have h0 : (l.drop i)[0]? = l[i + 0]? := List.getElem?_drop l i 0
      rw [← hdrop] at h0
      simp only [List.getElem?_cons_zero, Nat.add_zero] at h0
      rw [List.getD_eq_getElem?_getD, ← h0]
      rfl
    have hxs : xs = l.drop (i + 1) := by
      rw [← List.tail_drop, ← hdrop]
      rfl
    simp only [argmaxAux]
    by_cases hcmp : best < x
    · rw [if_pos hcmp]
      refine ih x i (i + 1) hxs hx (by omega) hilen ?_ ?_
      · intro j hj
        rcases Nat.lt_succ_iff_lt_or_eq.mp hj with h | h
        · exact le_of_lt (lt_of_le_of_lt (hle j h) hcmp)
        · rw [h, hx]
      · intro j hj
        exact lt_of_le_of_lt (hle j hj) hcmp
    · rw [if_neg hcmp]
      push_neg at hcmp
      refine ih best bi (i + 1) hxs hbest (by omega) hbl ?_ hlt
      intro j hj
      rcases Nat.lt_succ_iff_lt_or_eq.mp hj with h | h
      · exact hle j h
      · rw [h, hx]; exact hcmp

/-- Correctness of the `np.argmax` model on a nonempty list: the result is
in range, holds the maximum value, and every strictly earlier index
holds a strictly smaller value (first occurrence on ties). -/
lemma argmax_spec (l : List ℚ) (h : l ≠ []) :
    argmax l < l.length ∧
    (∀ j, j < l.length → l.getD j 0 ≤ l.getD (argmax l) 0) ∧
    (∀ j, j < argmax l → l.getD j 0 < l.getD (argmax l) 0) := by
  cases l with
  | nil => exact absurd rfl h
  | cons x xs =>
    have h0 : ∀ j, j < 1 → (x :: xs).getD j 0 ≤ x := by
      intro j hj
      have : j = 0 := by omega
      rw [this]; rfl
    have h1 : ∀ j, j < 0 → (x :: xs).getD j 0 < x := by
      intro j hj; omega
    simpa only [argmax] using
      argmaxAux_invariant (x :: xs) xs x 0 1 rfl rfl (by omega)
        (by simp) h0 h1

lemma coresetSpecLoop_length (features : List (List ℚ)) (k : Nat) :
    ∀ d : List ℚ, (coresetSpecLoop features k d).length = k := by
  induction k with
  | zero => intro d; rfl
  | succ n ih => intro d; simp only [coresetSpecLoop, List.length_cons, ih]

lemma coresetSpecLoop_mem_lt (features : List (List ℚ)) (hf : features ≠ [])
    (k : Nat) : ∀ d : List ℚ, d.length = features.length →
    ∀ i ∈ coresetSpecLoop features k d, i < features.length := by
  induction k with
  | zero => intro d _ i hi; simp [coresetSpecLoop] at hi
  | succ n ih =>
    intro d hd i hi
    simp only [coresetSpecLoop, List.mem_cons] at hi
    rcases hi with rfl | hi
    · have hdne : d ≠ [] := by
        intro h0
        rw [h0] at hd
        have : 0 < features.length := List.length_pos.mpr hf
        simp at hd
        omega
      have := (argmax_spec d hdne).1
      omega
    · refine ih _ ?_ i hi
      rw [List.length_zipWith, hd]
      simp

/-- C3: for any draw of starting anchors, the source computation
`_compute_greedy_coreset_indices` coincides with the spec-side greedy
farthest-point algorithm: the anchor count is clamped to the number of
rows, every row starts at its mean squared distance to the anchors, and
each of the `k` iterations appends the first index attaining the maximum
anchor distance and replaces each row's distance with the minimum of its
previous value and the squared distance to the newly selected row. -/
theorem coreset_matches_spec (c : CoresetSampler) (features : List (List ℚ))
    (sp : List Nat) (dists : List ℚ) (hd : dists ≠ []) :
    c.clampedStartingPoints features ≤ features.length ∧
    (c.number_of_starting_points ≤ features.length →
      c.clampedStartingPoints features = c.number_of_starting_points) ∧
    c.computeGreedyCoresetIndices features sp
      = coresetSpec features sp c.number_of_set_points ∧
    (argmax dists < dists.length ∧
     (∀ j, j < dists.length → dists.getD j 0 ≤ dists.getD (argmax dists) 0) ∧
     (∀ j, j < argmax dists → dists.getD j 0 < dists.getD (argmax dists) 0)) :=
  ⟨min_le_right _ _, fun h => min_eq_left h,
    computeGreedy_eq_spec c features sp, argmax_spec dists hd⟩

theorem coreset_matches_spec_witness :
    (([1, 0] : List ℚ) ≠ []) ∧
    ((CoresetSampler.mk 2 5).clampedStartingPoints [[(0 : ℚ)], [1]] ≤
        ([[(0 : ℚ)], [1]] : List (List ℚ)).length ∧
      ((CoresetSampler.mk 2 5).number_of_starting_points ≤
          ([[(0 : ℚ)], [1]] : List (List ℚ)).length →
        (CoresetSampler.mk 2 5).clampedStartingPoints [[(0 : ℚ)], [1]] =
          (CoresetSampler.mk 2 5).number_of_starting_points) ∧
      (CoresetSampler.mk 2 5).computeGreedyCoresetIndices [[(0 : ℚ)], [1]] [0]
        = coresetSpec [[(0 : ℚ)], [1]] [0]
            (CoresetSampler.mk 2 5).number_of_set_points ∧
      (argmax [1, 0] < ([1, 0] : List ℚ).length ∧
       (∀ j, j < ([1, 0] : List ℚ).length →
          ([1, 0] : List ℚ).getD j 0 ≤ ([1, 0] : List ℚ).getD (argmax [1, 0]) 0) ∧
       (∀ j, j < argmax [1, 0] →
          ([1, 0] : List ℚ).getD j 0 < ([1, 0] : List ℚ).getD (argmax [1, 0]) 0))) :=
  ⟨by decide, coreset_matches_spec ⟨2, 5⟩ [[0], [1]] [0] [1, 0] (by decide)⟩

/-- C4 counterexample: on the two-row matrix with duplicate rows, with
`k = 2 <= N = 2` and one starting anchor, both possible anchor draws
return the index sequence `[0, 0]`, which is not pairwise distinct. -/
theorem coreset_duplicate_indices :
    (CoresetSampler.mk 2 1).computeGreedyCoresetIndices [[(0 : ℚ)], [0]] [0]
      = [0, 0] ∧
    (CoresetSampler.mk 2 1).computeGreedyCoresetIndices [[(0 : ℚ)], [0]] [1]
      = [0, 0] ∧
    ¬ ([0, 0] : List Nat).Nodup ∧
    2 ≤ ([[(0 : ℚ)], [0]] : List (List ℚ)).length := by
  refine ⟨?_, ?_, by decide, by decide⟩ <;>
    norm_num [CoresetSampler.computeGreedyCoresetIndices, greedyLoopSrc,
      batchwiseDifferences, sqDist, argmax, argmaxAux, rowMin]

/-- C4 amended: for a nonempty feature matrix the sampler returns exactly
`number_of_set_points` row indices, each a valid row index; pairwise
distinctness is not guaranteed even when the target size is at most the
number of rows. -/
theorem coreset_length_and_range (c : CoresetSampler)
    (features : List (List ℚ)) (sp : List Nat) (hf : features ≠ []) :
    (c.computeGreedyCoresetIndices features sp).length
      = c.number_of_set_points ∧
    ∀ i ∈ c.computeGreedyCoresetIndices features sp, i < features.length := by
  rw [computeGreedy_eq_spec]
  unfold coresetSpec
  exact ⟨coresetSpecLoop_length features c.number_of_set_points _,
    coresetSpecLoop_mem_lt features hf c.number_of_set_points _
      (List.length_map _ _)⟩

theorem coreset_length_and_range_witness :
    (([[(0 : ℚ)], [1]] : List (List ℚ)) ≠ []) ∧
    (((CoresetSampler.mk 2 1).computeGreedyCoresetIndices [[(0 : ℚ)], [1]] [0]).length
        = (CoresetSampler.mk 2 1).number_of_set_points ∧
      ∀ i ∈ (CoresetSampler.mk 2 1).computeGreedyCoresetIndices [[(0 : ℚ)], [1]] [0],
        i < ([[(0 : ℚ)], [1]] : List (List ℚ)).length) :=
  ⟨by decide, coreset_length_and_range ⟨2, 1⟩ [[0], [1]] [0] (by decide)⟩

/-- Data matrix as a list of rows (the `SubsetMaker` engine is row-major). -/
abbrev Mat := List (List ℚ)

/-- Number of columns, `X.shape[1]`. -/
def ncols (X : Mat) : Nat := (X.headD []).length

/-- Number of rows, `X.shape[0]`. -/
def nrows (X : Mat) : Nat := X.length

/-- Numpy fancy indexing `X[:, cols]` on a row-major matrix. -/
def selectCols (cols : List Nat) (X : Mat) : Mat :=
  X.map (fun row => cols.map (fun j => row.getD j 0))

/-- Numpy fancy indexing `X[rows]`. -/
def selectRows (idx : List Nat) (X : Mat) : Mat := idx.map (fun i => X.getD i [])

/-- Numpy fancy indexing `v[rows]` for one-dimensional arrays. -/
def selectVals (idx : List Nat) (v : List ℚ) : List ℚ := idx.map (fun i => v.getD i 0)

/-- A fitted feature selector cached on the engine: `SelectKBest` keeps
the support columns computed at fit time; `PCA` keeps the requested
component count and the matrix it was fitted on. -/
inductive Selector where
  | selectKBest (cols : List Nat)
  | pca (k : Nat) (fitX : Mat)
deriving DecidableEq

/-- Apply a fitted selector, `selector.transform(X)`: `SelectKBest`
gathers its support columns; the PCA projection (centering plus the
fitted linear map) is abstracted by the `pcaProject` parameter. -/
def Selector.transform (pcaProject : Nat → Mat → Mat → Mat) :
    Selector → Mat → Mat
  | .selectKBest cols, X => selectCols cols X
  | .pca k fitX, X => pcaProject k fitX X

/-- The `SubsetMaker` engine state. -/
structure SubsetMaker where
  subset_features : Nat
  subset_rows : Nat
  subset_features_method : String
  subset_rows_method : String
  row_selector : Option Selector
  feature_selector : Option Selector
deriving DecidableEq

/-- `SubsetMaker.__init__`: both cached selectors start out unset. -/
def SubsetMaker.init (sf sr : Nat) (sfm srm : String) : SubsetMaker :=
  ⟨sf, sr, sfm, srm, none, none⟩

/-- `SubsetMaker.random_subset`; `choice n k` stands for the global-RNG
draw `np.random.choice(n, k, replace=False)`; the `rows` and `features`
flags mirror membership of "rows" / "features" in `action`. -/
def SubsetMaker.random_subset (sm : SubsetMaker) (choice : Nat → Nat → List Nat)
    (X : Mat) (y s : List ℚ) (rows features : Bool) :
    Mat × List ℚ × List ℚ :=
  let row_indices :=
    if rows then choice (nrows X) sm.subset_rows else List.range (nrows X)
  let feature_indices :=
    if features then choice (ncols X) sm.subset_features else List.range (ncols X)
  (selectCols feature_indices (selectRows row_indices X),
    selectVals row_indices y, selectVals row_indices s)

/-- `SubsetMaker.first_subset`: deterministic prefixes `np.arange(k)`. -/
def SubsetMaker.first_subset (sm : SubsetMaker)
    (X : Mat) (y s : List ℚ) (rows features : Bool) :
    Mat × List ℚ × List ℚ :=
  let row_indices :=
    if rows then List.range sm.subset_rows else List.range (nrows X)
  let feature_indices :=
    if features then List.range sm.subset_features else List.range (ncols X)
  (selectCols feature_indices (selectRows row_indices X),
    selectVals row_indices y, selectVals row_indices s)

/-- A Python return value of the subset methods: the train branch of
`mutual_information_subset` returns a 2-tuple, the other branches a
3-tuple. -/
inductive PyRet where
  | pair (X : Mat) (y : List ℚ)
  | triple (X : Mat) (y : List ℚ) (s : List ℚ)
deriving DecidableEq

/-- `SubsetMaker.mutual_information_subset` (src/tabpfn/priors/real.py
lines 288-309).  `miSupport k X y` stands for the support computed by
`SelectKBest(mutual_info_classif, k).fit(X, y)` (the randomized
mutual-information estimate is not modelled).  On the train split the
selector is fitted only when none is cached, and the method returns the
2-tuple `(X, y)`; on val/test an unfitted selector is `None` and the
`transform` attribute access raises. -/
def SubsetMaker.mutual_information_subset (sm : SubsetMaker)
    (miSupport : Nat → Mat → List ℚ → List Nat)
    (pcaProject : Nat → Mat → Mat → Mat)
    (X : Mat) (y s : List ℚ) (split : String) :
    SubsetMaker × Except String PyRet :=
  if !(split == "train" || split == "val" || split == "test") then
    (sm, .error "split must be train, val, or test")
  else if split == "train" then
    match sm.feature_selector with
    | none =>
        ({ sm with
            feature_selector := some (.selectKBest (miSupport sm.subset_features X y)) },
          .ok (.pair (selectCols (miSupport sm.subset_features X y) X) y))
    | some sel => (sm, .ok (.pair (sel.transform pcaProject X) y))
  else
    match sm.feature_selector with
    | none =>
        (sm, .error "AttributeError: NoneType object has no attribute transform")
    | some sel => (sm, .ok (.triple (sel.transform pcaProject X) y s))

/-- `SubsetMaker.pca_subset` (src/tabpfn/priors/real.py lines 311-322).
The method has parameters `(X, y, action, split)` - no `s` - yet ends in
`return X, y, s`, so every call that reaches the return raises
`NameError`; on the train split the selector is refit unconditionally
(`self.feature_selector = PCA(...)`) before the error is raised, and on
val/test an unfitted selector raises at the `transform` access. -/
def SubsetMaker.pca_subset (sm : SubsetMaker) (X : Mat) (y : List ℚ)
    (split : String) : SubsetMaker × Except String PyRet :=
  if !(split == "train" || split == "val" || split == "test") then
    (sm, .error "split must be train, val, or test")
  else if split == "train" then
    ({ sm with feature_selector := some (.pca sm.subset_features X) },
      .error "NameError: name s is not defined")
  else
    match sm.feature_selector with
    | none =>
        (sm, .error "AttributeError: NoneType object has no attribute transform")
    | some _ => (sm, .error "NameError: name s is not defined")

/-- `SubsetMaker.make_subset` (src/tabpfn/priors/real.py lines 362-418).
The feature gate `X.shape[1] > subset_features > 0` runs first, the row
gate `X.shape[0] > subset_rows > 0` second, on the possibly reduced
matrix.  Unrecognized strategy names raise `ValueError`.  Three call
sites are faulty and raise before the callee body runs or when
unpacking its result: `pca_subset(X, y, s, action=..., split=...)` binds
`s` to `action` positionally and then passes `action` again
(`TypeError`); `K_means_sketch(X, y, s, split=..., ...)` and
`coreset_sketch(X, y, s, split=..., ...)` bind `s` to `split`
positionally and then pass `split` again (`TypeError`); and the train
branch of `mutual_information_subset` returns a 2-tuple that fails to
unpack into `X, y, s` (`ValueError`). -/
def SubsetMaker.make_subset (sm : SubsetMaker)
    (miSupport : Nat → Mat → List ℚ → List Nat)
    (pcaProject : Nat → Mat → Mat → Mat)
    (choice : Nat → Nat → List Nat)
    (X : Mat) (y s : List ℚ) (split : String) :
    SubsetMaker × Except String (Mat × List ℚ × List ℚ) :=
  let step1 : SubsetMaker × Except String (Mat × List ℚ × List ℚ) :=
    if sm.subset_features < ncols X ∧ 0 < sm.subset_features then
      if sm.subset_features_method == "random" then
        (sm, .ok (sm.random_subset choice X y s false true))
      else if sm.subset_features_method == "first" then
        (sm, .ok (sm.first_subset X y s false true))
      else if sm.subset_features_method == "mutual_information" then
        match sm.mutual_information_subset miSupport pcaProject X y s split with
        | (sm1, .ok (.triple X1 y1 s1)) => (sm1, .ok (X1, y1, s1))
        | (sm1, .ok (.pair _ _)) =>
            (sm1, .error "ValueError: not enough values to unpack")
        | (sm1, .error e) => (sm1, .error e)
      else if sm.subset_features_method == "pca" then
        (sm, .error "TypeError: pca_subset got multiple values for argument action")
      else
        (sm, .error "ValueError: subset_features_method not recognized")
    else (sm, .ok (X, y, s))
  match step1 with
  | (sm1, .error e) => (sm1, .error e)
  | (sm1, .ok (X1, y1, s1)) =>
    if sm1.subset_rows < nrows X1 ∧ 0 < sm1.subset_rows then
      if sm1.subset_rows_method == "random" then
        (sm1, .ok (sm1.random_subset choice X1 y1 s1 true false))
      else if sm1.subset_rows_method == "first" then
        (sm1, .ok (sm1.first_subset X1 y1 s1 true false))
      else if sm1.subset_rows_method == "kmeans" then
        (sm1, .error "TypeError: K_means_sketch got multiple values for argument split")
      else if sm1.subset_rows_method == "coreset" then
        (sm1, .error "TypeError: coreset_sketch got multiple values for argument split")
      else
        (sm1, .error "ValueError: subset_rows_method not recognized")
    else (sm1, .ok (X1, y1, s1))

/-- Placeholder oracles used to evaluate the engine at concrete inputs. -/
def miSupportStub : Nat → Mat → List ℚ → List Nat := fun _ _ _ => [0]

def pcaProjectStub : Nat → Mat → Mat → Mat := fun _ _ X => X

def choiceStub : Nat → Nat → List Nat := fun _ k => List.range k

/-- C1: `make_subset` does not return a triple for every configured
strategy - it crashes.  With row strategy `coreset` or `kmeans` and the
row gate triggered the faulty call site raises `TypeError`; with feature
strategy `pca` and the feature gate triggered the call collides on
`action`; with feature strategy `mutual_information` on the train split
the 2-tuple return fails to unpack.  A configuration where neither gate
triggers does return `X, y, s` unchanged. -/
theorem make_subset_strategy_crashes :
    (SubsetMaker.init 0 1 "first" "coreset").make_subset miSupportStub
        pcaProjectStub choiceStub [[0], [1]] [0, 0] [0, 0] "train"
      = (SubsetMaker.init 0 1 "first" "coreset",
          .error "TypeError: coreset_sketch got multiple values for argument split") ∧
    (SubsetMaker.init 0 1 "first" "kmeans").make_subset miSupportStub
        pcaProjectStub choiceStub [[0], [1]] [0, 0] [0, 0] "train"
      = (SubsetMaker.init 0 1 "first" "kmeans",
          .error "TypeError: K_means_sketch got multiple values for argument split") ∧
    (SubsetMaker.init 1 0 "pca" "first").make_subset miSupportStub
        pcaProjectStub choiceStub [[0, 1]] [0] [0] "train"
      = (SubsetMaker.init 1 0 "pca" "first",
          .error "TypeError: pca_subset got multiple values for argument action") ∧
    (SubsetMaker.init 1 0 "mutual_information" "first").make_subset miSupportStub
        pcaProjectStub choiceStub [[0, 1]] [0] [0] "train"
      = ({ SubsetMaker.init 1 0 "mutual_information" "first" with
            feature_selector := some (.selectKBest [0]) },
          .error "ValueError: not enough values to unpack") ∧
    (SubsetMaker.init 9 9 "mutual_information" "coreset").make_subset miSupportStub
        pcaProjectStub choiceStub [[0, 1]] [0] [0] "train"
      = (SubsetMaker.init 9 9 "mutual_information" "coreset", .ok ([[0, 1]], [0], [0])) := by
  refine ⟨rfl, rfl, rfl, rfl, ?_⟩
  simp [SubsetMaker.make_subset, SubsetMaker.init, ncols, nrows]

/-- C8: on a fresh engine whose feature strategy is mutual-information or
pca, calling `make_subset` with split `val` or `test` and the feature
gate triggered raises instead of returning a result: the
mutual-information path hits the unfitted cached selector
(`None.transform`), and the pca path already fails at its faulty call
boundary. -/
theorem make_subset_val_before_train_fails
    (miS : Nat → Mat → List ℚ → List Nat) (pcaP : Nat → Mat → Mat → Mat)
    (choice : Nat → Nat → List Nat) (sf sr : Nat) (srm : String)
    (X : Mat) (y s : List ℚ) (split : String)
    (hgate : sf < ncols X) (hpos : 0 < sf)
    (hsplit : split = "val" ∨ split = "test") :
    (SubsetMaker.init sf sr "mutual_information" srm).make_subset miS pcaP
        choice X y s split
      = (SubsetMaker.init sf sr "mutual_information" srm,
          .error "AttributeError: NoneType object has no attribute transform") ∧
    (SubsetMaker.init sf sr "pca" srm).make_subset miS pcaP choice X y s split
      = (SubsetMaker.init sf sr "pca" srm,
          .error "TypeError: pca_subset got multiple values for argument action") := by
  rcases hsplit with rfl | rfl <;>
    simp [SubsetMaker.make_subset, SubsetMaker.init,
      SubsetMaker.mutual_information_subset, hgate, hpos]

theorem make_subset_val_before_train_fails_witness :
    (1 < ncols [[(0 : ℚ), 1]] ∧ 0 < 1 ∧ ("val" = "val" ∨ "val" = "test")) ∧
    ((SubsetMaker.init 1 0 "mutual_information" "first").make_subset miSupportStub
        pcaProjectStub choiceStub [[0, 1]] [0] [0] "val"
      = (SubsetMaker.init 1 0 "mutual_information" "first",
          .error "AttributeError: NoneType object has no attribute transform") ∧
    (SubsetMaker.init 1 0 "pca" "first").make_subset miSupportStub
        pcaProjectStub choiceStub [[0, 1]] [0] [0] "val"
      = (SubsetMaker.init 1 0 "pca" "first",
          .error "TypeError: pca_subset got multiple values for argument action")) :=
  ⟨⟨by decide, by decide, Or.inl rfl⟩,
    make_subset_val_before_train_fails miSupportStub pcaProjectStub choiceStub
      1 0 "first" [[0, 1]] [0] [0] "val" (by decide) (by decide) (Or.inl rfl)⟩

/-- C6 counterexample: two consecutive train-split calls of `pca_subset`
on the same engine instance refit the selector - after the second call
the cached selector is the one fitted on the second input, so the first
fit is not reused. -/
theorem pca_subset_refits_counterexample :
    ((SubsetMaker.init 1 0 "pca" "first").pca_subset [[0, 1]] [0] "train").1.feature_selector
      = some (.pca 1 [[0, 1]]) ∧
    ((((SubsetMaker.init 1 0 "pca" "first").pca_subset [[0, 1]] [0] "train").1.pca_subset
        [[2, 3]] [0] "train").1).feature_selector
      = some (.pca 1 [[2, 3]]) ∧
    some (Selector.pca 1 [[(2 : ℚ), 3]]) ≠ some (Selector.pca 1 [[(0 : ℚ), 1]]) := by
  refine ⟨rfl, rfl, ?_⟩
  intro h
  simp only [Option.some_inj, Selector.pca.injEq] at h
  have := h.2
  norm_num at this

/-- C6 amended: the fit-once/cached-reuse behavior holds for the
mutual-information strategy - the first train call fits and caches the
selector, and a repeated identical train call leaves the state unchanged
and returns the same selection - while `pca_subset` refits and replaces
the cached selector on every train-split call. -/
theorem mi_caches_pca_refits (sf sr : Nat) (sfm srm : String)
    (miS : Nat → Mat → List ℚ → List Nat) (pcaP : Nat → Mat → Mat → Mat)
    (X : Mat) (y s : List ℚ) (sm : SubsetMaker) :
    (((SubsetMaker.init sf sr sfm srm).mutual_information_subset miS pcaP
        X y s "train").1.feature_selector
      = some (.selectKBest (miS sf X y)) ∧
    (((SubsetMaker.init sf sr sfm srm).mutual_information_subset miS pcaP
        X y s "train").1.mutual_information_subset miS pcaP X y s "train").1
      = ((SubsetMaker.init sf sr sfm srm).mutual_information_subset miS pcaP
          X y s "train").1 ∧
    (((SubsetMaker.init sf sr sfm srm).mutual_information_subset miS pcaP
        X y s "train").1.mutual_information_subset miS pcaP X y s "train").2
      = ((SubsetMaker.init sf sr sfm srm).mutual_information_subset miS pcaP
          X y s "train").2) ∧
    (sm.pca_subset X y "train").1.feature_selector
      = some (.pca sm.subset_features X) := by
  refine ⟨⟨rfl, ?_, ?_⟩, rfl⟩ <;>
    simp [SubsetMaker.init, SubsetMaker.mutual_information_subset,
      Selector.transform]

/-- A column of possibly missing values; `none` stands for NaN. -/
abbrev Col := List (Option ℚ)

/-- A matrix stored as its list of columns: the imputation step of
`process_data` is entirely column-wise. -/
abbrev CMat := List Col

/-- The `num_mask` of src/tabpfn/priors/real.py lines 440-441: ones,
zeroed at every index in `cat_idx`. -/
def numMask (F : Nat) (cat_idx : List Nat) : List Bool :=
  (List.range F).map (fun i => !(cat_idx.contains i))

/-- `num_idx = np.where(num_mask)[0]` (line 452). -/
def numIdx (F : Nat) (cat_idx : List Nat) : List Nat :=
  (List.range F).filter (fun i => !(cat_idx.contains i))

/-- A column entirely missing: `(~np.isnan(col)).sum(axis=0) == 0`. -/
def fullyNan (c : Col) : Bool := c.countP (fun v => v.isSome) == 0

/-- The column indices `num_idx[fully_nan_num_idcs]` of lines 457-459:
numeric columns whose train column is entirely missing. -/
def fullyNanCols (Xtr : CMat) (ni : List Nat) : List Nat :=
  ni.filter (fun i => fullyNan (Xtr.getD i []))

/-- Set one column to all zeros. -/
def zeroCol (c : Col) : Col := c.map (fun _ => some 0)

/-- The assignment `X[:, idcs] = 0` of lines 461-463, column-wise. -/
def zeroColumns (idcs : List Nat) (X : CMat) : CMat :=
  (List.range X.length).map
    (fun i => if idcs.contains i then zeroCol (X.getD i []) else X.getD i [])

/-- Mean of the observed entries of a column: the per-column statistic of
`SimpleImputer()` (default strategy mean). -/
def colMean (c : Col) : ℚ :=
  (c.filterMap id).sum / ((c.filterMap id).length : ℚ)

/-- `SimpleImputer().fit` on a block of columns: a column with no
observed value gets no statistic and is dropped by `transform`. -/
def imputerFit (cols : List Col) : List (Option ℚ) :=
  cols.map (fun c =>
    if c.countP (fun v => v.isSome) == 0 then none else some (colMean c))

/-- Replace the missing entries of a column by the fitted statistic. -/
def imputeCol (m : ℚ) (c : Col) : Col := c.map (fun v => some (v.getD m))

/-- `SimpleImputer().transform`: impute the kept columns, drop the
columns without a statistic. -/
def imputerTransform (stats : List (Option ℚ)) (cols : List Col) : List Col :=
  (List.zip stats cols).filterMap (fun p => p.1.map (fun m => imputeCol m p.2))

/-- The fitted `ColumnTransformer` of lines 466-477: the imputed numeric
block (columns `num_idx`, in that order) followed by the passthrough
categorical block (columns `cat_idx`, in that order). -/
def columnTransform (stats : List (Option ℚ)) (ni ci : List Nat) (X : CMat) :
    CMat :=
  imputerTransform stats (ni.map (fun i => X.getD i []))
    ++ ci.map (fun i => X.getD i [])

/-- The `perm_idx` running-counter loop of lines 480-489. -/
def permIdxAux (numLen : Nat) : List Bool → Nat → Nat → List Nat
  | [], _, _ => []
  | b :: rest, rn, rc =>
    if b then rn :: permIdxAux numLen rest (rn + 1) rc
    else (rc + numLen) :: permIdxAux numLen rest rn (rc + 1)

def permIdx (mask : List Bool) (numLen : Nat) : List Nat :=
  permIdxAux numLen mask 0 0

/-- `X[:, perm_idx]`, column-wise. -/
def reorderCols (perm : List Nat) (X : CMat) : CMat :=
  perm.map (fun j => X.getD j [])

/-- The imputation step of `process_data` (src/tabpfn/priors/real.py
lines 451-494): zero the fully missing numeric train columns in all
three splits, fit the imputer on the numeric train block, transform all
three splits through the ColumnTransformer, and restore the original
column order through `perm_idx`. -/
def imputeBlock (cat_idx : List Nat) (Xtr Xv Xte : CMat) :
    CMat × CMat × CMat :=
  let F := Xtr.length
  let ni := numIdx F cat_idx
  let idcs := fullyNanCols Xtr ni
  let Xtr1 := zeroColumns idcs Xtr
  let Xv1 := zeroColumns idcs Xv
  let Xte1 := zeroColumns idcs Xte
  let stats := imputerFit (ni.map (fun i => Xtr1.getD i []))
  let perm := permIdx (numMask F cat_idx) ni.length
  (reorderCols perm (columnTransform stats ni cat_idx Xtr1),
   reorderCols perm (columnTransform stats ni cat_idx Xv1),
   reorderCols perm (columnTransform stats ni cat_idx Xte1))

/-- Spec-side imputation of one column at its original index (spec
section 4.4 step 2): categorical columns pass through unchanged; a
numeric column entirely missing in train is zeroed; every other numeric
column has its missing entries replaced by the mean of the observed
train entries. -/
def imputeSpecCol (cat_idx : List Nat) (Xtr X : CMat) (i : Nat) : Col :=
  if cat_idx.contains i then X.getD i []
  else if fullyNan (Xtr.getD i []) then zeroCol (X.getD i [])
  else imputeCol (colMean (Xtr.getD i [])) (X.getD i [])

/-- Spec-side imputation of a whole split: every column is transformed in
place, at its original index. -/
def imputeSpec (cat_idx : List Nat) (Xtr X : CMat) : CMat :=
  (List.range Xtr.length).map (imputeSpecCol cat_idx Xtr X)

lemma permIdxAux_length (numLen : Nat) (m : List Bool) :
    ∀ rn rc, (permIdxAux numLen m rn rc).length = m.length := by
  induction m with
  | nil => intro rn rc; rfl
  | cons b rest ih =>
    intro rn rc
    cases b <;> simp [permIdxAux, ih]

lemma permIdxAux_getD (numLen : Nat) (m : List Bool) :
    ∀ rn rc j, j < m.length →
      (permIdxAux numLen m rn rc).getD j 0 =
        if m.getD j false then rn + (m.take j).countP id
        else rc + numLen + (m.take j).countP (fun b => !b) := by
  induction m with
  | nil => intro rn rc j hj; simp at hj
  | cons b rest ih =>
    intro rn rc j hj
    cases j with
    | zero => cases b <;> simp [permIdxAux]
    | succ j' =>
      have hj' : j' < rest.length := by simpa using hj
      cases b with
      | true =>
        have step : permIdxAux numLen (true :: rest) rn rc
            = rn :: permIdxAux numLen rest (rn + 1) rc := by simp [permIdxAux]
        rw [step, List.getD_cons_succ, ih (rn + 1) rc j' hj',
          List.getD_cons_succ, List.take_succ_cons]
        cases hb : rest.getD j' false <;>
          simp only [hb, Bool.false_eq_true, if_false, if_true,
            List.countP_cons] <;> simp <;> omega
      | false =>
        have step : permIdxAux numLen (false :: rest) rn rc
            = (rc + numLen) :: permIdxAux numLen rest rn (rc + 1) := by
          simp [permIdxAux]
        rw [step, List.getD_cons_succ, ih rn (rc + 1) j' hj',
          List.getD_cons_succ, List.take_succ_cons]
        cases hb : rest.getD j' false <;>
          simp only [hb, Bool.false_eq_true, if_false, if_true,
            List.countP_cons] <;> simp <;> omega

lemma filter_range_decomp (q : Nat → Bool) (F i : Nat) (hi : i < F)
    (hq : q i = true) :
    ∃ B, (List.range F).filter q = ((List.range i).filter q) ++ i :: B := by
  have h1 : List.range F
      = List.range (i + 1) ++ (List.range (F - (i + 1))).map (fun x => (i + 1) + x) := by
    conv_lhs => rw [show F = (i + 1) + (F - (i + 1)) by omega]
    exact List.range_add _ _
  refine ⟨((List.range (F - (i + 1))).map (fun x => (i + 1) + x)).filter q, ?_⟩
  rw [h1, List.filter_append, List.range_succ, List.filter_append]
  simp [hq]

lemma filter_range_rank (q : Nat → Bool) (F i : Nat) (hi : i < F)
    (hq : q i = true) :
    ((List.range F).filter q).getD (((List.range i).filter q).length) 0 = i ∧
    ((List.range i).filter q).length < ((List.range F).filter q).length := by
  obtain ⟨B, hB⟩ := filter_range_decomp q F i hi hq
  constructor
  · rw [hB, List.getD_append_right _ _ _ _ (le_refl _)]
    simp
  · rw [hB]
    simp only [List.length_append, List.length_cons]
    omega

lemma sorted_eq_filter_range (L : List Nat) (F : Nat)
    (hs : List.Sorted (· < ·) L) (hF : ∀ i ∈ L, i < F) :
    (List.range F).filter (fun i => L.contains i) = L := by
  apply List.eq_of_perm_of_sorted (r := (· < ·))
  · rw [List.perm_ext_iff_of_nodup ((List.nodup_range F).filter _) hs.nodup]
    intro a
    simp only [List.mem_filter, List.mem_range]
    constructor
    · rintro ⟨-, hm⟩
      exact List.elem_iff.1 hm
    · intro hm
      exact ⟨hF a hm, List.elem_iff.2 hm⟩
  · exact (List.pairwise_lt_range F).filter _
  · exact hs

lemma zeroColumns_length (idcs : List Nat) (X : CMat) :
    (zeroColumns idcs X).length = X.length := by
  simp [zeroColumns]

lemma zeroColumns_getD (idcs : List Nat) (X : CMat) (i : Nat)
    (hi : i < X.length) :
    (zeroColumns idcs X).getD i [] =
      if idcs.contains i then zeroCol (X.getD i []) else X.getD i [] := by
  unfold zeroColumns
  rw [List.getD_eq_getElem _ _ (by simpa using hi), List.getElem_map,
    List.getElem_range]

lemma zipWith_map_same {α β γ δ : Type} (f : β → γ → δ) (g : α → β)
    (h : α → γ) (l : List α) :
    List.zipWith f (l.map g) (l.map h) = l.map (fun a => f (g a) (h a)) := by
  induction l with
  | nil => rfl
  | cons x xs ih => simp [ih]

lemma imputerTransform_fit (tc : List Col) :
    ∀ oc : List Col, (∀ c ∈ tc, c.countP (fun v => v.isSome) ≠ 0) →
      imputerTransform (imputerFit tc) oc
        = List.zipWith (fun c d => imputeCol (colMean c) d) tc oc := by
  induction tc with
  | nil => intro oc h; cases oc <;> rfl
  | cons c tcl ih =>
    intro oc h
    cases oc with
    | nil => rfl
    | cons d ocl =>
      have hc : (c.countP (fun v => v.isSome) == 0) = false := by
        simpa using h c (List.mem_cons_self c tcl)
      have h1 : imputerTransform (imputerFit (c :: tcl)) (d :: ocl)
          = imputeCol (colMean c) d :: imputerTransform (imputerFit tcl) ocl := by
        unfold imputerTransform imputerFit
        simp only [List.map_cons, List.zip_cons_cons, List.filterMap_cons, hc,
          Bool.false_eq_true, if_false, Option.map_some']
      rw [h1, ih ocl (fun x hx => h x (List.mem_cons_of_mem c hx))]
      rfl

lemma imputeCol_zeroCol (m : ℚ) (c : Col) :
    imputeCol m (zeroCol c) = zeroCol c := by
  simp [imputeCol, zeroCol]

lemma countP_zeroCol (c : Col) :
    (zeroCol c).countP (fun v => v.isSome) = c.length := by
  unfold zeroCol
  induction c with
  | nil => rfl
  | cons x xs ih =>
    rw [List.map_cons, List.countP_cons, ih]
    rfl

lemma permIdxAux_getD_true (numLen : Nat) (m : List Bool) (rn rc j : Nat)
    (hj : j < m.length) (hm : m.getD j false = true) :
    (permIdxAux numLen m rn rc).getD j 0 = rn + (m.take j).countP id := by
  rw [permIdxAux_getD numLen m rn rc j hj, hm]
  simp

lemma permIdxAux_getD_false (numLen : Nat) (m : List Bool) (rn rc j : Nat)
    (hj : j < m.length) (hm : m.getD j false = false) :
    (permIdxAux numLen m rn rc).getD j 0
      = rc + numLen + (m.take j).countP (fun b => !b) := by
  rw [permIdxAux_getD numLen m rn rc j hj, hm]
  simp

lemma contains_false_not_mem (L : List Nat) (a : Nat)
    (h : L.contains a = false) : a ∉ L := by
  intro hm
  have h1 : L.contains a = true := List.elem_iff.2 hm
  rw [h] at h1
  exact Bool.false_ne_true h1

lemma mem_numIdx (cat_idx : List Nat) (F i : Nat) :
    i ∈ numIdx F cat_idx ↔ i < F ∧ cat_idx.contains i = false := by
  simp [numIdx, List.mem_filter, List.mem_range, Bool.not_eq_true',
    and_comm]

lemma contains_fullyNanCols (Xtr : CMat) (ni : List Nat) (i : Nat) :
    (fullyNanCols Xtr ni).contains i = true
      ↔ i ∈ ni ∧ fullyNan (Xtr.getD i []) = true := by
  rw [List.elem_iff]
  simp [fullyNanCols, List.mem_filter]

lemma getD_mem_of_lt (X : CMat) (i : Nat) (hi : i < X.length) :
    X.getD i [] ∈ X := by
  rw [List.getD_eq_getElem _ _ hi]
  exact List.getElem_mem hi

/-- Core of C5: the source sequence zero-columns / fit-impute /
ColumnTransformer / perm reorder equals the column-in-place spec
description, for any split matrix `X` with the same column count as the
train matrix. -/
lemma reorder_impute_spec (cat_idx : List Nat) (Xtr X : CMat)
    (hs : List.Sorted (· < ·) cat_idx)
    (hcf : ∀ i ∈ cat_idx, i < Xtr.length)
    (hX : X.length = Xtr.length)
    (hrow : ∀ c ∈ Xtr, c ≠ []) :
    reorderCols
      (permIdx (numMask Xtr.length cat_idx) (numIdx Xtr.length cat_idx).length)
      (columnTransform
        (imputerFit ((numIdx Xtr.length cat_idx).map
          (fun i => (zeroColumns (fullyNanCols Xtr (numIdx Xtr.length cat_idx)) Xtr).getD i [])))
        (numIdx Xtr.length cat_idx) cat_idx
        (zeroColumns (fullyNanCols Xtr (numIdx Xtr.length cat_idx)) X))
    = imputeSpec cat_idx Xtr X := by
  have hcat : (List.range Xtr.length).filter (fun i => cat_idx.contains i) = cat_idx :=
    sorted_eq_filter_range cat_idx Xtr.length hs hcf
  -- the numeric train block keeps every column (after zeroing, none is all-missing)
  have htc : ∀ c ∈ (numIdx Xtr.length cat_idx).map
      (fun i => (zeroColumns (fullyNanCols Xtr (numIdx Xtr.length cat_idx)) Xtr).getD i []),
      c.countP (fun v => v.isSome) ≠ 0 := by
    intro c hc
    obtain ⟨i, hi, rfl⟩ := List.mem_map.1 hc
    have hiF : i < Xtr.length := ((mem_numIdx cat_idx Xtr.length i).1 hi).1
    have hne : Xtr.getD i [] ≠ [] := hrow _ (getD_mem_of_lt Xtr i hiF)
    rw [zeroColumns_getD _ _ _ hiF]
    by_cases hz : (fullyNanCols Xtr (numIdx Xtr.length cat_idx)).contains i = true
    · rw [if_pos hz, countP_zeroCol]
      simpa [List.length_pos] using hne
    · rw [if_neg hz]
      intro h0
      refine hz ((contains_fullyNanCols _ _ _).2 ⟨hi, ?_⟩)
      unfold fullyNan
      rw [h0]
      rfl
  -- the transformed numeric block, columnwise
  have hNB : imputerTransform
      (imputerFit ((numIdx Xtr.length cat_idx).map
        (fun i => (zeroColumns (fullyNanCols Xtr (numIdx Xtr.length cat_idx)) Xtr).getD i [])))
      ((numIdx Xtr.length cat_idx).map
        (fun i => (zeroColumns (fullyNanCols Xtr (numIdx Xtr.length cat_idx)) X).getD i []))
      = (numIdx Xtr.length cat_idx).map (fun i =>
          imputeCol
            (colMean ((zeroColumns (fullyNanCols Xtr (numIdx Xtr.length cat_idx)) Xtr).getD i []))
            ((zeroColumns (fullyNanCols Xtr (numIdx Xtr.length cat_idx)) X).getD i [])) := by
    rw [imputerTransform_fit _ _ htc, zipWith_map_same]
  have hNBlen : (imputerTransform
      (imputerFit ((numIdx Xtr.length cat_idx).map
        (fun i => (zeroColumns (fullyNanCols Xtr (numIdx Xtr.length cat_idx)) Xtr).getD i [])))
      ((numIdx Xtr.length cat_idx).map
        (fun i => (zeroColumns (fullyNanCols Xtr (numIdx Xtr.length cat_idx)) X).getD i []))).length
      = (numIdx Xtr.length cat_idx).length := by
    rw [hNB, List.length_map]
  have hpermlen : (permIdx (numMask Xtr.length cat_idx)
      (numIdx Xtr.length cat_idx).length).length = Xtr.length := by
    unfold permIdx
    rw [permIdxAux_length]
    simp [numMask]
  apply List.ext_getElem
  · simp only [reorderCols, List.length_map, hpermlen, imputeSpec,
      List.length_range]
  intro j hj1 hj2
  have hjF : j < Xtr.length := by
    simpa only [reorderCols, List.length_map, hpermlen] using hj1
  -- right-hand side: the spec column at its index
  have hrhs : (imputeSpec cat_idx Xtr X)[j] = imputeSpecCol cat_idx Xtr X j := by
    simp only [imputeSpec, List.getElem_map, List.getElem_range]
  rw [hrhs]
  -- left-hand side: the permuted ColumnTransformer column
  have hlhs : (reorderCols
      (permIdx (numMask Xtr.length cat_idx) (numIdx Xtr.length cat_idx).length)
      (columnTransform
        (imputerFit ((numIdx Xtr.length cat_idx).map
          (fun i => (zeroColumns (fullyNanCols Xtr (numIdx Xtr.length cat_idx)) Xtr).getD i [])))
        (numIdx Xtr.length cat_idx) cat_idx
        (zeroColumns (fullyNanCols Xtr (numIdx Xtr.length cat_idx)) X)))[j]
      = (columnTransform
        (imputerFit ((numIdx Xtr.length cat_idx).map
          (fun i => (zeroColumns (fullyNanCols Xtr (numIdx Xtr.length cat_idx)) Xtr).getD i [])))
        (numIdx Xtr.length cat_idx) cat_idx
        (zeroColumns (fullyNanCols Xtr (numIdx Xtr.length cat_idx)) X)).getD
          ((permIdx (numMask Xtr.length cat_idx)
            (numIdx Xtr.length cat_idx).length).getD j 0) [] := by
    simp only [reorderCols, List.getElem_map]
    congr 1
    rw [List.getD_eq_getElem _ _ (by rw [hpermlen]; exact hjF)]
  rw [hlhs]
  -- evaluate the permutation index at j
  have hmaskj : (numMask Xtr.length cat_idx).getD j false = !(cat_idx.contains j) := by
    unfold numMask
    rw [List.getD_eq_getElem _ _ (by simpa using hjF), List.getElem_map,
      List.getElem_range]
  have hmasktake : (numMask Xtr.length cat_idx).take j
      = (List.range j).map (fun i => !(cat_idx.contains i)) := by
    unfold numMask
    rw [← List.map_take, List.take_range, Nat.min_eq_left (le_of_lt hjF)]
  cases hcj : cat_idx.contains j with
  | false =>
    -- numeric column: it lands in the imputed numeric block at its rank
    have hpermj : (permIdx (numMask Xtr.length cat_idx)
        (numIdx Xtr.length cat_idx).length).getD j 0
        = ((List.range j).filter (fun i => !(cat_idx.contains i))).length := by
      unfold permIdx
      rw [permIdxAux_getD_true _ _ _ _ _ (by simpa [numMask] using hjF)
          (by rw [hmaskj, hcj]; rfl),
        hmasktake, List.countP_map]
      simp only [Function.comp_def, id_eq, Nat.zero_add]
      rw [List.countP_eq_length_filter]
    rw [hpermj]
    have hqj : (fun i => !(cat_idx.contains i)) j = true := by
      simpa using contains_false_not_mem cat_idx j hcj
    have hrank := filter_range_rank (fun i => !(cat_idx.contains i))
      Xtr.length j hjF hqj
    have hrlen : ((List.range j).filter (fun i => !(cat_idx.contains i))).length
        < (numIdx Xtr.length cat_idx).length := hrank.2
    unfold columnTransform
    rw [List.getD_append _ _ _ _ (by rw [hNBlen]; exact hrlen), hNB]
    rw [List.getD_eq_getElem _ _ (by rw [List.length_map]; exact hrlen),
      List.getElem_map]
    have hni_at : (numIdx Xtr.length cat_idx)[((List.range j).filter
        (fun i => !(cat_idx.contains i))).length] = j := by
      have h0 := hrank.1
      rw [List.getD_eq_getElem _ _ hrank.2] at h0
      exact h0
    rw [hni_at]
    -- now both sides are about column j itself
    unfold imputeSpecCol
    rw [if_neg (by rw [hcj]; exact Bool.false_ne_true)]
    by_cases hfn : fullyNan (Xtr.getD j []) = true
    · have hzj : (fullyNanCols Xtr (numIdx Xtr.length cat_idx)).contains j = true :=
        (contains_fullyNanCols _ _ _).2
          ⟨(mem_numIdx cat_idx Xtr.length j).2 ⟨hjF, hcj⟩, hfn⟩
      rw [zeroColumns_getD _ _ _ (by omega : j < X.length),
        zeroColumns_getD _ _ _ hjF, if_pos hzj, if_pos hzj,
        imputeCol_zeroCol, if_pos hfn]
    · have hzj : (fullyNanCols Xtr (numIdx Xtr.length cat_idx)).contains j = false := by
        rw [Bool.eq_false_iff]
        intro hmem
        exact hfn ((contains_fullyNanCols _ _ _).1 hmem).2
      rw [zeroColumns_getD _ _ _ (by omega : j < X.length),
        zeroColumns_getD _ _ _ hjF,
        if_neg (by rw [hzj]; exact Bool.false_ne_true),
        if_neg (by rw [hzj]; exact Bool.false_ne_true), if_neg hfn]
  | true =>
    -- categorical column: it lands in the passthrough block at its rank
    have hpermj : (permIdx (numMask Xtr.length cat_idx)
        (numIdx Xtr.length cat_idx).length).getD j 0
        = (numIdx Xtr.length cat_idx).length
          + ((List.range j).filter (fun i => cat_idx.contains i)).length := by
      unfold permIdx
      rw [permIdxAux_getD_false _ _ _ _ _ (by simpa [numMask] using hjF)
          (by rw [hmaskj, hcj]; rfl),
        hmasktake, List.countP_map]
      have hcomp : ((fun b => !b) ∘ fun i => !(cat_idx.contains i))
          = fun i => cat_idx.contains i := by
        funext i
        simp
      rw [hcomp, List.countP_eq_length_filter]
      omega
    rw [hpermj]
    have hrank := filter_range_rank (fun i => cat_idx.contains i)
      Xtr.length j hjF hcj
    have hrlen : ((List.range j).filter (fun i => cat_idx.contains i)).length
        < cat_idx.length := by
      have h0 := hrank.2
      rwa [hcat] at h0
    unfold columnTransform
    rw [List.getD_append_right _ _ _ _ (by rw [hNBlen]; omega)]
    rw [hNBlen, Nat.add_sub_cancel_left]
    rw [List.getD_eq_getElem _ _ (by rw [List.length_map]; exact hrlen),
      List.getElem_map]
    have hci_at : cat_idx[((List.range j).filter
        (fun i => cat_idx.contains i)).length] = j := by
      have h0 := hrank.1
      rw [hcat] at h0
      rw [List.getD_eq_getElem _ _ hrlen] at h0
      exact h0
    rw [hci_at]
    have hzj : (fullyNanCols Xtr (numIdx Xtr.length cat_idx)).contains j = false := by
      rw [Bool.eq_false_iff]
      intro hmem
      have h1 := ((contains_fullyNanCols _ _ _).1 hmem).1
      have h2 := ((mem_numIdx cat_idx Xtr.length j).1 h1).2
      rw [hcj] at h2
      exact Bool.true_eq_false.mp h2
    rw [zeroColumns_getD _ _ _ (by omega : j < X.length),
      if_neg (by rw [hzj]; exact Bool.false_ne_true)]
    unfold imputeSpecCol
    rw [if_pos hcj]

/-- C5: with imputation enabled, the impute step of `process_data` keeps
the column count of all three splits, keeps every column at its original
index (the numeric-then-categorical reordering of the ColumnTransformer
is inverted back by `perm_idx`), and zeroes every numeric column that is
entirely missing in train across train, val, and test: all three outputs
equal the column-in-place spec description `imputeSpec`. -/
theorem impute_preserves_columns (cat_idx : List Nat) (Xtr Xv Xte : CMat)
    (hs : List.Sorted (· < ·) cat_idx)
    (hcf : ∀ i ∈ cat_idx, i < Xtr.length)
    (hv : Xv.length = Xtr.length) (hte : Xte.length = Xtr.length)
    (hrow : ∀ c ∈ Xtr, c ≠ []) :
    (imputeBlock cat_idx Xtr Xv Xte).1 = imputeSpec cat_idx Xtr Xtr ∧
    (imputeBlock cat_idx Xtr Xv Xte).2.1 = imputeSpec cat_idx Xtr Xv ∧
    (imputeBlock cat_idx Xtr Xv Xte).2.2 = imputeSpec cat_idx Xtr Xte ∧
    (imputeBlock cat_idx Xtr Xv Xte).1.length = Xtr.length ∧
    (imputeBlock cat_idx Xtr Xv Xte).2.1.length = Xtr.length ∧
    (imputeBlock cat_idx Xtr Xv Xte).2.2.length = Xtr.length ∧
    (∀ i, i < Xtr.length → cat_idx.contains i = false →
      fullyNan (Xtr.getD i []) = true →
      (imputeBlock cat_idx Xtr Xv Xte).1.getD i [] = zeroCol (Xtr.getD i []) ∧
      (imputeBlock cat_idx Xtr Xv Xte).2.1.getD i [] = zeroCol (Xv.getD i []) ∧
      (imputeBlock cat_idx Xtr Xv Xte).2.2.getD i [] = zeroCol (Xte.getD i [])) := by
  have e1 : (imputeBlock cat_idx Xtr Xv Xte).1 = imputeSpec cat_idx Xtr Xtr :=
    reorder_impute_spec cat_idx Xtr Xtr hs hcf rfl hrow
  have e2 : (imputeBlock cat_idx Xtr Xv Xte).2.1 = imputeSpec cat_idx Xtr Xv :=
    reorder_impute_spec cat_idx Xtr Xv hs hcf hv hrow
  have e3 : (imputeBlock cat_idx Xtr Xv Xte).2.2 = imputeSpec cat_idx Xtr Xte :=
    reorder_impute_spec cat_idx Xtr Xte hs hcf hte hrow
  refine ⟨e1, e2, e3, ?_, ?_, ?_, ?_⟩
  · rw [e1]; simp [imputeSpec]
  · rw [e2]; simp [imputeSpec]
  · rw [e3]; simp [imputeSpec]
  · intro i hi hc hfn
    have hcol : ∀ X : CMat,
        (imputeSpec cat_idx Xtr X).getD i [] = zeroCol (X.getD i []) := by
      intro X
      rw [List.getD_eq_getElem _ _ (by simpa [imputeSpec] using hi)]
      simp only [imputeSpec, List.getElem_map, List.getElem_range]
      unfold imputeSpecCol
      rw [if_neg (by rw [hc]; exact Bool.false_ne_true), if_pos hfn]
    exact ⟨by rw [e1]; exact hcol Xtr, by rw [e2]; exact hcol Xv,
      by rw [e3]; exact hcol Xte⟩

/-- Concrete single-column matrices for the C5 witness: the one numeric
column of the train split is entirely missing. -/
def c5Xtr : CMat := [[none]]

def c5Xv : CMat := [[some 1]]

def c5Xte : CMat := [[none, some 2]]

theorem impute_preserves_columns_witness :
    (List.Sorted (· < ·) ([] : List Nat) ∧
      (∀ i ∈ ([] : List Nat), i < c5Xtr.length) ∧
      c5Xv.length = c5Xtr.length ∧ c5Xte.length = c5Xtr.length ∧
      ∀ c ∈ c5Xtr, c ≠ []) ∧
    ((imputeBlock [] c5Xtr c5Xv c5Xte).1 = imputeSpec [] c5Xtr c5Xtr ∧
     (imputeBlock [] c5Xtr c5Xv c5Xte).2.1 = imputeSpec [] c5Xtr c5Xv ∧
     (imputeBlock [] c5Xtr c5Xv c5Xte).2.2 = imputeSpec [] c5Xtr c5Xte ∧
     (imputeBlock [] c5Xtr c5Xv c5Xte).1.length = c5Xtr.length ∧
     (imputeBlock [] c5Xtr c5Xv c5Xte).2.1.length = c5Xtr.length ∧
     (imputeBlock [] c5Xtr c5Xv c5Xte).2.2.length = c5Xtr.length ∧
     (∀ i, i < c5Xtr.length → ([] : List Nat).contains i = false →
       fullyNan (c5Xtr.getD i []) = true →
       (imputeBlock [] c5Xtr c5Xv c5Xte).1.getD i [] = zeroCol (c5Xtr.getD i []) ∧
       (imputeBlock [] c5Xtr c5Xv c5Xte).2.1.getD i [] = zeroCol (c5Xv.getD i []) ∧
       (imputeBlock [] c5Xtr c5Xv c5Xte).2.2.getD i [] = zeroCol (c5Xte.getD i []))) :=
  ⟨⟨List.sorted_nil, by simp, rfl, rfl, by decide⟩,
    impute_preserves_columns [] c5Xtr c5Xv c5Xte List.sorted_nil
      (by simp) rfl rfl (by decide)⟩

end TuneTables
